import Mathlib

/-!
Shallow embedding of the transfer / staking-balance / balance-map core of a
Coinbase SDK (TypeScript).  Sources embedded:
  - src/coinbase/transfer.ts        (class Transfer)
  - src/coinbase/staking_balance.ts (class StakingBalance)
  - src/coinbase/balance_map.ts     (class BalanceMap)
TypeScript `undefined` is modelled as `Option.none`; a thrown exception is
modelled through `Except Err`.  Network collaborators (the API client, the
asset lookup) are passed in as explicit function arguments; the list of
requests actually issued is returned alongside the result where a claim is
about whether a call was made.  Wall-clock time in `wait` is modelled by the
sum of the sleeps performed (reload calls take zero model time), in integer
milliseconds.
-/

/-- The unified transfer status enum (`TransferStatus` in types.ts, which is
not under src/; its four members are named throughout transfer.ts and the
spec: PENDING, BROADCAST, COMPLETE, FAILED). -/
inductive TransferStatus where
  | PENDING
  | BROADCAST
  | COMPLETE
  | FAILED
deriving DecidableEq, Repr

/-- Errors thrown by the embedded code.  `genericError` is JavaScript's plain
`Error`, `typeError` the runtime `TypeError` raised when a property of
`undefined` is read, `timeoutError` the SDK's `TimeoutError`.
`invalidStateError` is modelled from the spec: the spec's §7 taxonomy names an
`InvalidStateError` class; no such class appears in the code under src/ (the
errors module is not under src/, and transfer.ts itself throws a plain
`Error`).  It is included so that statements about that class can be made. -/
inductive Err where
  | internalError (msg : String)
  | timeoutError (msg : String)
  | typeError (msg : String)
  | genericError (msg : String)
  | invalidStateError (msg : String)
  | transportError (msg : String)
deriving DecidableEq, Repr

/-- True exactly on the `invalidStateError` variant. -/
def Err.isInvalidState : Err → Bool
  | .invalidStateError _ => true
  | _ => false

/-- Modelled from the spec: the embedded OnchainTransaction record
(transaction.ts is not under src/).  Per §4.1 a delegate carries a raw status
(a string enum member supplied by the server), a signed payload (present only
after signing), a transaction hash (present only after broadcast) and an
explorer link.  `isSigned()` is true once the signed payload is present. -/
structure TransactionModel where
  status : Option String
  signed_payload : Option String
  transaction_hash : Option String
  transaction_link : Option String
deriving DecidableEq, Repr

/-- Modelled from the spec: the embedded SponsoredSend record
(sponsored_send.ts is not under src/); same capability surface as
`TransactionModel` per §4.1. -/
structure SponsoredSendModel where
  status : Option String
  signed_payload : Option String
  transaction_hash : Option String
  transaction_link : Option String
deriving DecidableEq, Repr

/-- The Transfer model record (client/api.ts is not under src/; fields are the
ones transfer.ts reads: transfer_id, network_id, wallet_id, address_id,
destination, asset_id, amount, asset decimals, and the two optional embedded
delegate sub-records). -/
structure TransferModel where
  transfer_id : String
  network_id : String
  wallet_id : String
  address_id : String
  destination : String
  asset_id : String
  amount : String
  asset_decimals : Nat
  transaction : Option TransactionModel
  sponsored_send : Option SponsoredSendModel
deriving DecidableEq, Repr

/-- The send-transaction delegate: either the Transaction view or the
SponsoredSend view (transfer.ts returns one of the two wrapper objects). -/
inductive SendDelegate where
  | onchain (t : TransactionModel)
  | sponsored (s : SponsoredSendModel)
deriving DecidableEq, Repr

/-- Delegate `getStatus()`: the raw status string of the backing record, or
undefined.  Modelled from the spec (§4.1: `getStatus() -> rawStatus | absent`;
the wrapper classes are not under src/). -/
def SendDelegate.getStatus : SendDelegate → Option String
  | .onchain t => t.status
  | .sponsored s => s.status

/-- Delegate `getSignature()`: the signed payload, or undefined (§4.1). -/
def SendDelegate.getSignature : SendDelegate → Option String
  | .onchain t => t.signed_payload
  | .sponsored s => s.signed_payload

/-- Delegate `isSigned()`: true once a signed payload is present (§4.1). -/
def SendDelegate.isSigned (d : SendDelegate) : Bool :=
  d.getSignature.isSome

/-- Delegate `getTransactionHash()` (§4.1). -/
def SendDelegate.getTransactionHash : SendDelegate → Option String
  | .onchain t => t.transaction_hash
  | .sponsored s => s.transaction_hash

/-- Delegate `getTransactionLink()` (§4.1). -/
def SendDelegate.getTransactionLink : SendDelegate → Option String
  | .onchain t => t.transaction_link
  | .sponsored s => s.transaction_link

namespace Transfer

/-- transfer.ts `getTransaction()`: the embedded OnchainTransaction record,
or undefined. -/
def getTransaction (m : TransferModel) : Option TransactionModel :=
  m.transaction

/-- transfer.ts `getSponsoredSend()`: the embedded SponsoredSend record, or
undefined. -/
def getSponsoredSend (m : TransferModel) : Option SponsoredSendModel :=
  m.sponsored_send

/-- transfer.ts `getSendTransactionDelegate()`:
`!this.getTransaction() ? this.getSponsoredSend() : this.getTransaction()` —
prefer the Transaction, else the SponsoredSend, else undefined. -/
def getSendTransactionDelegate (m : TransferModel) : Option SendDelegate :=
  match getTransaction m with
  | some t => some (.onchain t)
  | none => (getSponsoredSend m).map .sponsored

/-- transfer.ts `getTransactionHash()`:
`this.getSendTransactionDelegate()?.getTransactionHash()` — optional chaining,
so an absent delegate yields undefined. -/
def getTransactionHash (m : TransferModel) : Option String :=
  (getSendTransactionDelegate m).bind SendDelegate.getTransactionHash

/-- transfer.ts `getTransactionLink()`:
`this.getSendTransactionDelegate()?.getTransactionLink()` — optional chaining,
so an absent delegate yields undefined. -/
def getTransactionLink (m : TransferModel) : Option String :=
  (getSendTransactionDelegate m).bind SendDelegate.getTransactionLink

/-- The `switch` statement inside transfer.ts `getStatus()`.  The two raw
enums are string enums (types.ts, not under src/; values per the spec §4.2
table: onchain pending/broadcast/complete/failed and sponsored
pending/signed/submitted/complete/failed), so the switch compares the raw
string value only: the duplicate-valued cases (`TransactionStatus.PENDING` and
`SponsoredSendStatus.PENDING` are both "pending", likewise "complete" and
"failed") collapse, and the delegate kind plays no role.  `switch (undefined)`
matches no case and falls to `default`, returning undefined. -/
def statusSwitch (raw : Option String) : Option TransferStatus :=
  if raw = some "pending" then some .PENDING
  else if raw = some "signed" then some .PENDING
  else if raw = some "broadcast" then some .BROADCAST
  else if raw = some "submitted" then some .BROADCAST
  else if raw = some "complete" then some .COMPLETE
  else if raw = some "failed" then some .FAILED
  else none

/-- transfer.ts `getStatus()`:
`switch (this.getSendTransactionDelegate()!.getStatus()!) { ... }`.
The `!` is only a compile-time assertion: at runtime, when no delegate is
present, reading `.getStatus` off `undefined` throws a `TypeError`. -/
def getStatus (m : TransferModel) : Except Err (Option TransferStatus) :=
  match getSendTransactionDelegate m with
  | none => .error (.typeError "Cannot read properties of undefined")
  | some d => .ok (statusSwitch d.getStatus)

/-- The body of the broadcast request built in transfer.ts `broadcast()`:
`{ signed_payload: this.getSendTransactionDelegate()!.getSignature()! }`. -/
structure BroadcastTransferRequest where
  signed_payload : Option String
deriving DecidableEq, Repr

/-- transfer.ts `broadcast()`.  The API client is the explicit argument
`api`; the second component of the result is the list of broadcast requests
actually issued (empty exactly when the endpoint was never invoked).
`if (!this.getSendTransactionDelegate()?.isSigned()) throw new Error(...)`
happens before the request is built; on success the method returns
`Transfer.fromModel(response.data)` — a Transfer wrapping exactly the
server's response record. -/
def broadcast (m : TransferModel)
    (api : BroadcastTransferRequest → Except Err TransferModel) :
    Except Err TransferModel × List BroadcastTransferRequest :=
  if ((getSendTransactionDelegate m).map SendDelegate.isSigned).getD false = false then
    (.error (.genericError "Cannot broadcast unsigned Transfer"), [])
  else
    let req : BroadcastTransferRequest :=
      ⟨(getSendTransactionDelegate m).bind SendDelegate.getSignature⟩
    (api req, [req])

/-- The key of the get-transfer request issued by transfer.ts `reload()`:
wallet id, source address id, transfer id. -/
structure GetTransferRequest where
  wallet_id : String
  address_id : String
  transfer_id : String
deriving DecidableEq, Repr

/-- transfer.ts `reload()`: fetches the record keyed by wallet, address and
transfer id and assigns `this.model = result?.data` — the state is replaced
wholesale by the server record; the new model is the returned value here
(explicit state passing). -/
def reload (m : TransferModel)
    (api : GetTransferRequest → Except Err TransferModel) :
    Except Err TransferModel :=
  api ⟨m.wallet_id, m.address_id, m.transfer_id⟩

/-- The terminal-status test in transfer.ts `wait()`:
`status === TransferStatus.COMPLETE || status === TransferStatus.FAILED`. -/
def isTerminal (st : Option TransferStatus) : Bool :=
  st = some TransferStatus.COMPLETE || st = some TransferStatus.FAILED

/-- The polling loop of transfer.ts `wait()`.  `reloads i` is the outcome of
the (i+1)-th reload (the server's successive snapshots, or a transport
error).  `elapsed` models `Date.now() - startTime` in milliseconds: each
`delay(intervalSeconds)` advances it by `intervalMs`; the reload itself takes
zero model time.  `fuel` bounds the recursion; `none` means the fuel ran out
before the loop finished (the loop itself would have continued).  The pair
returned with the outcome is the elapsed time at return, i.e. `intervalMs`
times the number of sleeps performed. -/
def waitLoop (reloads : Nat → Except Err TransferModel)
    (intervalMs timeoutMs : Nat) :
    Nat → Nat → Nat → Option (Except Err TransferModel × Nat)
  | 0, _, _ => none
  | fuel + 1, i, elapsed =>
    if elapsed < timeoutMs then
      match reloads i with
      | .error e => some (.error e, elapsed)
      | .ok m =>
        match getStatus m with
        | .error e => some (.error e, elapsed)
        | .ok st =>
          if isTerminal st then
            some (.ok m, elapsed)
          else
            waitLoop reloads intervalMs timeoutMs fuel (i + 1) (elapsed + intervalMs)
    else
      some (.error (.timeoutError "Transfer timed out"), elapsed)

/-- transfer.ts `wait({intervalSeconds = 0.2, timeoutSeconds = 10})`: run the
polling loop from elapsed time 0 and the first reload.  Intervals and the
timeout are in milliseconds (the source multiplies seconds by 1000). -/
def wait (reloads : Nat → Except Err TransferModel)
    (intervalMs timeoutMs fuel : Nat) :
    Option (Except Err TransferModel × Nat) :=
  waitLoop reloads intervalMs timeoutMs fuel 0 0

end Transfer

/-- The asset object fetched once per page by staking_balance.ts
(`Asset.fetch(networkId, assetId)`; asset.ts is not under src/).  Modelled
from the spec: an asset pairs an identifier with its decimal precision, and
the lookup is deterministic, so within one `list` call every page receives
the same asset value — here the fixed argument `asset`. -/
structure Asset where
  network_id : String
  asset_id : String
  decimals : Nat
deriving DecidableEq, Repr

/-- The StakingBalance model record (client, not under src/; fields are the
ones staking_balance.ts reads). -/
structure StakingBalanceModel where
  date : String
  address_id : String
  participate_type : String
  bonded_stake : String
  unbonded_stake : String
  total_delegation_received : String
deriving DecidableEq, Repr

/-- One page returned by `fetchStakingBalances` (client, not under src/):
the record list, the `has_more` flag, and the optional `next_page` cursor
string.  staking_balance.ts reads exactly these three fields. -/
structure FetchPage where
  data : List StakingBalanceModel
  has_more : Bool
  next_page : Option String
deriving DecidableEq, Repr

/-- A StakingBalance: the model record paired with the asset fetched for its
page (the constructor of class StakingBalance). -/
structure StakingBalance where
  model : StakingBalanceModel
  asset : Asset
deriving DecidableEq, Repr

namespace StakingBalance

/-- The cursor argument staking_balance.ts passes to the fetch:
`page?.length ? page : undefined` — the empty-string sentinel becomes an
omitted (undefined) cursor, a non-empty queue entry is passed through. -/
def cursorArg (page : String) : Option String :=
  if page.length = 0 then none else some page

/-- The state of the `list` loop: the work queue of cursors and the
accumulated `stakingBalances` array. -/
abbrev ListState := List String × List StakingBalance

/-- One iteration of the `while (queue.length > 0)` loop in
staking_balance.ts `list`, or the final return when the queue is empty.
`fetch` is the page endpoint (already scoped to the request's network, asset,
address and time interval, with the fixed page size 100); `asset` is the
per-page asset lookup's (constant) result.  The iteration shifts a cursor,
fetches that page, appends every record wrapped with the asset in
server-returned order, and — only when `has_more` is set AND `next_page` is
truthy (present and non-empty) — pushes the next cursor. -/
def listStep (fetch : Option String → FetchPage) (asset : Asset) :
    ListState → ListState ⊕ List StakingBalance
  | ([], acc) => .inr acc
  | (page :: rest, acc) =>
    let response := fetch (cursorArg page)
    let acc2 := acc ++ response.data.map (fun sb => StakingBalance.mk sb asset)
    let queue2 :=
      if response.has_more then
        if (response.next_page.getD "").length ≠ 0 then
          rest ++ [response.next_page.getD ""]
        else rest
      else rest
    .inl (queue2, acc2)

/-- The `list` loop run to completion, with `fuel` bounding the number of
iterations (`none` = fuel exhausted before the queue emptied). -/
def listLoop (fetch : Option String → FetchPage) (asset : Asset) :
    Nat → ListState → Option (List StakingBalance)
  | 0, _ => none
  | fuel + 1, s =>
    match listStep fetch asset s with
    | .inr acc => some acc
    | .inl s2 => listLoop fetch asset fuel s2

/-- staking_balance.ts `list`: start from the queue holding the single
empty-string sentinel (first page) and an empty result array. -/
def list (fetch : Option String → FetchPage) (asset : Asset) (fuel : Nat) :
    Option (List StakingBalance) :=
  listLoop fetch asset fuel ([""], [])

/-- The trace of loop states of `list`: `listReach fetch asset n` is the
state after n iterations (`.inl`), or the returned result once the queue has
emptied (`.inr`). -/
def listReach (fetch : Option String → FetchPage) (asset : Asset) :
    Nat → ListState ⊕ List StakingBalance
  | 0 => .inl ([""], [])
  | n + 1 =>
    match listReach fetch asset n with
    | .inl s => listStep fetch asset s
    | .inr r => .inr r

/-- `chainWith endP fetch cur ps`: starting from queue entry `cur`, the fetch
serves exactly the page sequence `ps`: each non-final page has `has_more`
set and a truthy next cursor leading to the next page, and the final page
satisfies `endP`. -/
def chainWith (endP : FetchPage → Prop) (fetch : Option String → FetchPage) :
    String → List FetchPage → Prop
  | _, [] => False
  | cur, p :: rest =>
    fetch (cursorArg cur) = p ∧
    match rest with
    | [] => endP p
    | _ :: _ =>
      p.has_more = true ∧ (p.next_page.getD "").length ≠ 0 ∧
      chainWith endP fetch (p.next_page.getD "") rest

end StakingBalance

/-- A Balance: an asset identifier and a decimal amount (balance.ts is not
under src/; modelled from the spec — balance_map.ts reads exactly the
`assetId` and `amount` properties).  The amount is modelled as an integer
value; no claim computes with it. -/
structure Balance where
  assetId : String
  amount : Int
deriving DecidableEq, Repr

/-- JavaScript `Map.prototype.set` on an association list with string keys:
update the (first) entry with the key in place, else append the new entry. -/
def mapSet : List (String × Int) → String → Int → List (String × Int)
  | [], k, v => [(k, v)]
  | (k2, v2) :: rest, k, v =>
    if k2 = k then (k, v) :: rest else (k2, v2) :: mapSet rest k v

/-- JavaScript `Map.prototype.get`: the value at the (first) entry with the
key, or undefined. -/
def mapGet : List (String × Int) → String → Option Int
  | [], _ => none
  | (k2, v) :: rest, k => if k2 = k then some v else mapGet rest k

/-- The BalanceMap: a `Map<string, Decimal>` keyed by asset id. -/
structure BalanceMap where
  map : List (String × Int)
deriving DecidableEq, Repr

namespace BalanceMap

/-- balance_map.ts `add(balance)`:
`this.map.set(balance.assetId, balance.amount)` (the `instanceof` guard is a
type check that always passes for an actual Balance). -/
def add (bm : BalanceMap) (b : Balance) : BalanceMap :=
  ⟨mapSet bm.map b.assetId b.amount⟩

/-- balance_map.ts `fromBalances(balances)`: start empty and `add` each
balance in list order.  The per-element `Balance.fromModel` conversion
(balance.ts, not under src/) is modelled as the identity on an
already-converted list of Balances. -/
def fromBalances (balances : List Balance) : BalanceMap :=
  balances.foldl add ⟨[]⟩

/-- Lookup on a BalanceMap, for stating its contents. -/
def get (bm : BalanceMap) (k : String) : Option Int :=
  mapGet bm.map k

end BalanceMap

/-! ### Concrete fixtures used by witnesses and counterexamples -/

/-- An unsigned OnchainTransaction record with the given raw status. -/
def mkTransactionModel (raw : Option String) : TransactionModel :=
  ⟨raw, none, none, none⟩

/-- A TransferModel whose delegate is an unsigned OnchainTransaction with the
given raw status. -/
def mkOnchainTransfer (raw : Option String) : TransferModel :=
  ⟨"t1", "base-sepolia", "w1", "a1", "dest1", "eth", "1000", 18,
   some (mkTransactionModel raw), none⟩

/-- A TransferModel whose delegate is an unsigned SponsoredSend with the
given raw status. -/
def mkSponsoredTransfer (raw : Option String) : TransferModel :=
  ⟨"t1", "base-sepolia", "w1", "a1", "dest1", "eth", "1000", 18,
   none, some ⟨raw, none, none, none⟩⟩

/-- A TransferModel with neither embedded delegate sub-record. -/
def mNoDelegate : TransferModel :=
  ⟨"t1", "base-sepolia", "w1", "a1", "dest1", "eth", "1000", 18, none, none⟩

/-- A TransferModel whose OnchainTransaction delegate is signed. -/
def mSignedTransfer : TransferModel :=
  ⟨"t1", "base-sepolia", "w1", "a1", "dest1", "eth", "1000", 18,
   some ⟨some "signed", some "0xdeadbeef", none, none⟩, none⟩

/-- A broadcast API stub answering every request with a fixed record. -/
def apiBroadcastStub : Transfer.BroadcastTransferRequest → Except Err TransferModel :=
  fun _ => .ok (mkOnchainTransfer (some "broadcast"))

/-- A get-transfer API stub answering every request with a fixed record. -/
def apiGetStub : Transfer.GetTransferRequest → Except Err TransferModel :=
  fun _ => .ok (mkOnchainTransfer (some "complete"))

/-! ### C1: the status mapping -/

/-- C1 counterexample: an OnchainTransaction delegate whose raw status is
"signed".  The pair (Onchain, signed) is not a row of the §4.2 table, so the
claim demands the undefined value; the code's switch compares raw string
values only and returns PENDING. -/
theorem spec_C1_counterexample :
    Transfer.getStatus (mkOnchainTransfer (some "signed")) =
      .ok (some TransferStatus.PENDING) ∧
    Transfer.statusSwitch (some "signed") ≠ (none : Option TransferStatus) := by
  exact ⟨rfl, by decide⟩

/-- C1 (amended): `Transfer.getStatus` maps the active delegate's raw status
by its string value alone, independently of the delegate kind: pending and
signed map to PENDING, broadcast and submitted to BROADCAST, complete to
COMPLETE, failed to FAILED — which includes every row of the §4.2 table —
and any raw status outside these six values yields the undefined value, never
an error. -/
theorem spec_C1 :
    ∀ (m : TransferModel) (d : SendDelegate),
      Transfer.getSendTransactionDelegate m = some d →
      (d.getStatus = some "pending" →
        Transfer.getStatus m = .ok (some TransferStatus.PENDING)) ∧
      (d.getStatus = some "signed" →
        Transfer.getStatus m = .ok (some TransferStatus.PENDING)) ∧
      (d.getStatus = some "broadcast" →
        Transfer.getStatus m = .ok (some TransferStatus.BROADCAST)) ∧
      (d.getStatus = some "submitted" →
        Transfer.getStatus m = .ok (some TransferStatus.BROADCAST)) ∧
      (d.getStatus = some "complete" →
        Transfer.getStatus m = .ok (some TransferStatus.COMPLETE)) ∧
      (d.getStatus = some "failed" →
        Transfer.getStatus m = .ok (some TransferStatus.FAILED)) ∧
      (∀ raw : String,
        raw ∉ (["pending", "signed", "broadcast", "submitted", "complete",
                 "failed"] : List String) →
        d.getStatus = some raw →
        Transfer.getStatus m = .ok (none : Option TransferStatus)) := by
  intro m d h
  have hg : Transfer.getStatus m = .ok (Transfer.statusSwitch d.getStatus) := by
    unfold Transfer.getStatus
    rw [h]
  refine ⟨?_, ?_, ?_, ?_, ?_, ?_, ?_⟩
  · intro hs; rw [hg, hs]; rfl
  · intro hs; rw [hg, hs]; rfl
  · intro hs; rw [hg, hs]; rfl
  · intro hs; rw [hg, hs]; rfl
  · intro hs; rw [hg, hs]; rfl
  · intro hs; rw [hg, hs]; rfl
  · intro raw hraw hs
    rw [hg, hs]
    simp only [List.mem_cons, List.not_mem_nil, or_false, not_or] at hraw
    obtain ⟨h1, h2, h3, h4, h5, h6⟩ := hraw
    simp [Transfer.statusSwitch, h1, h2, h3, h4, h5, h6]

/-- C1 witness: concrete instances of the amended mapping, for an onchain
delegate, a sponsored delegate, and an unmapped raw status. -/
theorem spec_C1_witness :
    Transfer.getStatus (mkOnchainTransfer (some "pending")) =
      .ok (some TransferStatus.PENDING) ∧
    Transfer.getStatus (mkSponsoredTransfer (some "submitted")) =
      .ok (some TransferStatus.BROADCAST) ∧
    Transfer.getStatus (mkOnchainTransfer (some "unspecified")) =
      .ok (none : Option TransferStatus) :=
  ⟨(spec_C1 (mkOnchainTransfer (some "pending")) _ rfl).1 rfl,
   (spec_C1 (mkSponsoredTransfer (some "submitted")) _ rfl).2.2.2.1 rfl,
   (spec_C1 (mkOnchainTransfer (some "unspecified")) _ rfl).2.2.2.2.2.2
     "unspecified" (by decide) rfl⟩

/-! ### C3: a Transfer with no delegate sub-record -/

/-- C3 counterexample: with neither sub-record present, `getStatus()` does
not return the undefined value — it throws (the source dereferences the
absent delegate through a non-null assertion, a runtime TypeError). -/
theorem spec_C3_counterexample :
    Transfer.getStatus mNoDelegate =
      .error (Err.typeError "Cannot read properties of undefined") := by
  rfl

/-- C3 (amended): for every Transfer whose model has neither an embedded
OnchainTransaction sub-record nor an embedded SponsoredSend sub-record,
`getTransactionHash()` and `getTransactionLink()` return undefined, but
`getStatus()` throws a runtime TypeError instead of returning undefined. -/
theorem spec_C3 :
    ∀ m : TransferModel, m.transaction = none → m.sponsored_send = none →
      Transfer.getTransactionHash m = none ∧
      Transfer.getTransactionLink m = none ∧
      Transfer.getStatus m =
        .error (Err.typeError "Cannot read properties of undefined") := by
  intro m h1 h2
  have hd : Transfer.getSendTransactionDelegate m = none := by
    simp [Transfer.getSendTransactionDelegate, Transfer.getTransaction,
      Transfer.getSponsoredSend, h1, h2]
  refine ⟨?_, ?_, ?_⟩
  · simp [Transfer.getTransactionHash, hd]
  · simp [Transfer.getTransactionLink, hd]
  · simp [Transfer.getStatus, hd]

/-- C3 witness: the amended claim at the concrete delegate-free Transfer. -/
theorem spec_C3_witness :
    Transfer.getTransactionHash mNoDelegate = none ∧
    Transfer.getTransactionLink mNoDelegate = none ∧
    Transfer.getStatus mNoDelegate =
      .error (Err.typeError "Cannot read properties of undefined") :=
  spec_C3 mNoDelegate rfl rfl

/-! ### C4: broadcasting an unsigned Transfer -/

/-- C4 counterexample: broadcasting an unsigned Transfer raises the plain
generic `Error` with message "Cannot broadcast unsigned Transfer" — not an
InvalidStateError (no such class is raised by the code). -/
theorem spec_C4_counterexample :
    (Transfer.broadcast (mkOnchainTransfer (some "pending")) apiBroadcastStub).1 =
      .error (Err.genericError "Cannot broadcast unsigned Transfer") ∧
    Err.isInvalidState (Err.genericError "Cannot broadcast unsigned Transfer") =
      false :=
  ⟨rfl, rfl⟩

/-- C4 (amended): for every Transfer whose active delegate reports
`isSigned() = false` (including a Transfer with no delegate at all) and for
every broadcast endpoint, `broadcast()` raises a plain generic
`Error("Cannot broadcast unsigned Transfer")` — not an InvalidStateError
class — before issuing any network call; the broadcast endpoint is never
invoked (the trace of issued requests is empty). -/
theorem spec_C4 :
    ∀ (m : TransferModel)
      (api : Transfer.BroadcastTransferRequest → Except Err TransferModel),
      ((Transfer.getSendTransactionDelegate m).map SendDelegate.isSigned).getD
          false = false →
      Transfer.broadcast m api =
        (.error (Err.genericError "Cannot broadcast unsigned Transfer"), []) := by
  intro m api h
  simp [Transfer.broadcast, h]

/-- C4 witness: the amended claim at a concrete unsigned Transfer and a
concrete endpoint stub. -/
theorem spec_C4_witness :
    Transfer.broadcast (mkOnchainTransfer (some "pending")) apiBroadcastStub =
      (.error (Err.genericError "Cannot broadcast unsigned Transfer"), []) :=
  spec_C4 (mkOnchainTransfer (some "pending")) apiBroadcastStub rfl

/-! ### C5: wholesale snapshot replacement on broadcast and reload -/

/-- C5: on a successful broadcast the returned Transfer's model is exactly
the server's response record (and the one broadcast request carried the
delegate's signature); on a successful reload the new model is exactly the
server's returned record.  Both responses are arbitrary, so no field of the
prior snapshot survives into the result. -/
theorem spec_C5 :
    ∀ (m : TransferModel)
      (api : Transfer.BroadcastTransferRequest → Except Err TransferModel)
      (apiGet : Transfer.GetTransferRequest → Except Err TransferModel)
      (resp resp2 : TransferModel),
      ((Transfer.getSendTransactionDelegate m).map SendDelegate.isSigned).getD
          false = true →
      api ⟨(Transfer.getSendTransactionDelegate m).bind SendDelegate.getSignature⟩ =
        .ok resp →
      apiGet ⟨m.wallet_id, m.address_id, m.transfer_id⟩ = .ok resp2 →
      Transfer.broadcast m api =
        (.ok resp,
         [⟨(Transfer.getSendTransactionDelegate m).bind SendDelegate.getSignature⟩]) ∧
      Transfer.reload m apiGet = .ok resp2 := by
  intro m api apiGet resp resp2 h1 h2 h3
  constructor
  · simp [Transfer.broadcast, h1, h2]
  · simp [Transfer.reload, h3]

/-- C5 witness: the claim at a concrete signed Transfer and concrete API
stubs. -/
theorem spec_C5_witness :
    Transfer.broadcast mSignedTransfer apiBroadcastStub =
      (.ok (mkOnchainTransfer (some "broadcast")), [⟨some "0xdeadbeef"⟩]) ∧
    Transfer.reload mSignedTransfer apiGetStub =
      .ok (mkOnchainTransfer (some "complete")) :=
  spec_C5 mSignedTransfer apiBroadcastStub apiGetStub
    (mkOnchainTransfer (some "broadcast")) (mkOnchainTransfer (some "complete"))
    rfl rfl rfl

/-! ### C6 and C7: the wait/poll protocol -/

/-- Auxiliary invariant for the polling loop under a never-terminal reload
stream: from any loop state whose elapsed time is still below
`timeoutMs + intervalMs` and whose remaining fuel suffices, the loop ends in
`TimeoutError` with a final elapsed time in `[timeoutMs, timeoutMs + intervalMs)`. -/
lemma waitLoop_timeout (reloads : Nat → Except Err TransferModel)
    (intervalMs timeoutMs : Nat)
    (hnt : ∀ j, ∃ mj stj, reloads j = .ok mj ∧
      Transfer.getStatus mj = .ok stj ∧ Transfer.isTerminal stj = false) :
    ∀ (fuel i elapsed : Nat),
      elapsed < timeoutMs + intervalMs →
      timeoutMs + intervalMs ≤ elapsed + fuel * intervalMs →
      ∃ e, Transfer.waitLoop reloads intervalMs timeoutMs fuel i elapsed =
          some (.error (Err.timeoutError "Transfer timed out"), e) ∧
        timeoutMs ≤ e ∧ e < timeoutMs + intervalMs := by
  intro fuel
  induction fuel with
  | zero =>
    intro i elapsed hlt hle
    simp only [Nat.zero_mul, Nat.add_zero] at hle
    omega
  | succ fuel ih =>
    intro i elapsed hlt hle
    by_cases hcond : elapsed < timeoutMs
    · obtain ⟨mj, stj, hr, hs, hterm⟩ := hnt i
      have hstep : Transfer.waitLoop reloads intervalMs timeoutMs (fuel + 1) i elapsed =
          Transfer.waitLoop reloads intervalMs timeoutMs fuel (i + 1)
            (elapsed + intervalMs) := by
        simp [Transfer.waitLoop, hcond, hr, hs, hterm]
      rw [hstep]
      refine ih (i + 1) (elapsed + intervalMs) (by omega) ?_
      have : (fuel + 1) * intervalMs = fuel * intervalMs + intervalMs :=
        Nat.succ_mul fuel intervalMs
      omega
    · refine ⟨elapsed, ?_, by omega, hlt⟩
      simp [Transfer.waitLoop, hcond]

/-- C6: for every run of `wait` in which each reload succeeds and its unified
status is non-terminal (never COMPLETE or FAILED), `wait` raises
`TimeoutError`, and the elapsed time at the raise is at least `timeoutMs` and
under `timeoutMs + intervalMs` — no later than the timeout plus one
poll-interval of slack.  In particular no Transfer is returned. -/
theorem spec_C6 :
    ∀ (reloads : Nat → Except Err TransferModel) (intervalMs timeoutMs fuel : Nat),
      0 < intervalMs →
      (∀ j, ∃ mj stj, reloads j = .ok mj ∧
        Transfer.getStatus mj = .ok stj ∧ Transfer.isTerminal stj = false) →
      timeoutMs + intervalMs ≤ fuel * intervalMs →
      ∃ e, Transfer.wait reloads intervalMs timeoutMs fuel =
          some (.error (Err.timeoutError "Transfer timed out"), e) ∧
        timeoutMs ≤ e ∧ e < timeoutMs + intervalMs := by
  intro reloads intervalMs timeoutMs fuel hpos hnt hfuel
  exact waitLoop_timeout reloads intervalMs timeoutMs hnt fuel 0 0
    (by omega) (by omega)

/-- A reload stream that always reports a pending onchain transaction. -/
def reloadsPending : Nat → Except Err TransferModel :=
  fun _ => .ok (mkOnchainTransfer (some "pending"))

/-- C6 witness: with 200 ms polls and a 1000 ms timeout against an
always-pending stream, `wait` raises `TimeoutError` within one poll interval
past the timeout. -/
theorem spec_C6_witness :
    ∃ e, Transfer.wait reloadsPending 200 1000 6 =
        some (.error (Err.timeoutError "Transfer timed out"), e) ∧
      1000 ≤ e ∧ e < 1000 + 200 :=
  spec_C6 reloadsPending 200 1000 6 (by decide)
    (fun _ => ⟨mkOnchainTransfer (some "pending"), some TransferStatus.PENDING,
      rfl, rfl, rfl⟩)
    (by decide)

/-- Auxiliary for C7: if the next `k` reloads are successful and
non-terminal and the (k+1)-th is successful and terminal, and the elapsed
time stays under the timeout through the terminal observation, the loop
returns that reload's Transfer after exactly `k` more sleeps. -/
lemma waitLoop_first_terminal (reloads : Nat → Except Err TransferModel)
    (intervalMs timeoutMs : Nat) :
    ∀ (k fuel i elapsed : Nat) (m : TransferModel) (st : Option TransferStatus),
      (∀ j, j < k → ∃ mj stj, reloads (i + j) = .ok mj ∧
        Transfer.getStatus mj = .ok stj ∧ Transfer.isTerminal stj = false) →
      reloads (i + k) = .ok m →
      Transfer.getStatus m = .ok st →
      Transfer.isTerminal st = true →
      elapsed + k * intervalMs < timeoutMs →
      k < fuel →
      Transfer.waitLoop reloads intervalMs timeoutMs fuel i elapsed =
        some (.ok m, elapsed + k * intervalMs) := by
  intro k
  induction k with
  | zero =>
    intro fuel i elapsed m st _ hr hs hterm hlt hfuel
    obtain ⟨fuel', rfl⟩ : ∃ fuel', fuel = fuel' + 1 :=
      ⟨fuel - 1, by omega⟩
    rw [Nat.add_zero] at hr
    have hlt2 : elapsed < timeoutMs := by omega
    simp [Transfer.waitLoop, hlt2, hr, hs, hterm]
  | succ k ih =>
    intro fuel i elapsed m st hnt hr hs hterm hlt hfuel
    obtain ⟨fuel', rfl⟩ : ∃ fuel', fuel = fuel' + 1 :=
      ⟨fuel - 1, by omega⟩
    have hmul : (k + 1) * intervalMs = k * intervalMs + intervalMs :=
      Nat.succ_mul k intervalMs
    have hcond : elapsed < timeoutMs := by omega
    obtain ⟨m0, st0, hr0, hs0, hterm0⟩ := hnt 0 (Nat.succ_pos k)
    rw [Nat.add_zero] at hr0
    have hstep : Transfer.waitLoop reloads intervalMs timeoutMs (fuel' + 1) i elapsed =
        Transfer.waitLoop reloads intervalMs timeoutMs fuel' (i + 1)
          (elapsed + intervalMs) := by
      simp [Transfer.waitLoop, hcond, hr0, hs0, hterm0]
    rw [hstep]
    have hres := ih fuel' (i + 1) (elapsed + intervalMs) m st
      (fun j hj => by
        have := hnt (j + 1) (by omega)
        rwa [show i + (j + 1) = i + 1 + j by omega] at this)
      (by rwa [show i + 1 + k = i + (k + 1) by omega])
      hs hterm (by omega) (by omega)
    have harith : elapsed + intervalMs + k * intervalMs =
        elapsed + (k + 1) * intervalMs := by
      rw [hmul]; omega
    rw [hres, harith]

/-- C7: if the first `k` reloads succeed with non-terminal unified statuses
and the (k+1)-th reload succeeds with a terminal unified status (COMPLETE or
FAILED), all within the timeout, then `wait` returns exactly that reload's
Transfer with elapsed time `k * intervalMs` — i.e. after exactly `k` sleeps,
with no further sleep after the terminal observation. -/
theorem spec_C7 :
    ∀ (reloads : Nat → Except Err TransferModel)
      (intervalMs timeoutMs fuel k : Nat) (m : TransferModel)
      (st : Option TransferStatus),
      (∀ j, j < k → ∃ mj stj, reloads j = .ok mj ∧
        Transfer.getStatus mj = .ok stj ∧ Transfer.isTerminal stj = false) →
      reloads k = .ok m →
      Transfer.getStatus m = .ok st →
      Transfer.isTerminal st = true →
      k * intervalMs < timeoutMs →
      k < fuel →
      Transfer.wait reloads intervalMs timeoutMs fuel = some (.ok m, k * intervalMs) := by
  intro reloads intervalMs timeoutMs fuel k m st hnt hr hs hterm hlt hfuel
  have := waitLoop_first_terminal reloads intervalMs timeoutMs k fuel 0 0 m st
    (fun j hj => by simpa using hnt j hj)
    (by simpa using hr) hs hterm (by omega) hfuel
  simpa [Transfer.wait] using this

/-- The reload stream of the claim's concrete scenario: raw statuses
pending, broadcast, complete over successive reloads. -/
def reloadsScenario : Nat → Except Err TransferModel :=
  fun j =>
    .ok (mkOnchainTransfer (some (if j = 0 then "pending"
      else if j = 1 then "broadcast" else "complete")))

/-- C7 witness: the claim's concrete scenario — statuses
[pending, broadcast, complete], 200 ms interval, 10000 ms timeout: `wait`
performs exactly 2 sleeps (elapsed 400 ms) and returns the 3rd reload's
Transfer, whose unified status is COMPLETE. -/
theorem spec_C7_witness :
    Transfer.wait reloadsScenario 200 10000 51 =
      some (.ok (mkOnchainTransfer (some "complete")), 2 * 200) ∧
    Transfer.getStatus (mkOnchainTransfer (some "complete")) =
      .ok (some TransferStatus.COMPLETE) :=
  ⟨spec_C7 reloadsScenario 200 10000 51 2 (mkOnchainTransfer (some "complete"))
      (some TransferStatus.COMPLETE)
      (fun j hj => by
        match j with
        | 0 => exact ⟨mkOnchainTransfer (some "pending"),
            some TransferStatus.PENDING, rfl, rfl, rfl⟩
        | 1 => exact ⟨mkOnchainTransfer (some "broadcast"),
            some TransferStatus.BROADCAST, rfl, rfl, rfl⟩
        | j + 2 => omega)
      rfl rfl rfl (by decide) (by decide),
   rfl⟩

/-! ### C2, C8, C9: paginated staking-balance retrieval -/

/-- The common shape of a terminating cursor walk: if the fetch serves the
chained page sequence `ps` from cursor `cur`, and the final page either
clears `has_more` or supplies no truthy cursor, the loop returns the
accumulator extended by every page's records in page order. -/
lemma listLoop_chainWith (endP : FetchPage → Prop)
    (hEnd : ∀ p, endP p → p.has_more = false ∨ (p.next_page.getD "").length = 0)
    (fetch : Option String → FetchPage) (asset : Asset) :
    ∀ (ps : List FetchPage) (cur : String) (acc : List StakingBalance)
      (fuel : Nat),
      StakingBalance.chainWith endP fetch cur ps →
      ps.length + 1 ≤ fuel →
      StakingBalance.listLoop fetch asset fuel ([cur], acc) =
        some (acc ++ (ps.flatMap FetchPage.data).map
          (fun sb => StakingBalance.mk sb asset)) := by
  intro ps
  induction ps with
  | nil =>
    intro cur acc fuel hchain _
    exact absurd hchain (by simp [StakingBalance.chainWith])
  | cons p rest ih =>
    intro cur acc fuel hchain hfuel
    obtain ⟨fuel', rfl⟩ : ∃ fuel', fuel = fuel' + 1 :=
      ⟨fuel - 1, by omega⟩
    obtain ⟨hf, hrest⟩ := hchain
    match rest with
    | [] =>
      obtain ⟨fuel'', rfl⟩ : ∃ fuel'', fuel' = fuel'' + 1 :=
        ⟨fuel' - 1, by simp at hfuel; omega⟩
      rcases hEnd p hrest with h | h
      · simp [StakingBalance.listLoop, StakingBalance.listStep, hf, h]
      · simp [StakingBalance.listLoop, StakingBalance.listStep, hf, h]
    | q :: rest2 =>
      obtain ⟨hmore, hcur, hchain2⟩ := hrest
      have hstep : StakingBalance.listLoop fetch asset (fuel' + 1) ([cur], acc) =
          StakingBalance.listLoop fetch asset fuel'
            ([p.next_page.getD ""],
             acc ++ p.data.map (fun sb => StakingBalance.mk sb asset)) := by
        simp [StakingBalance.listLoop, StakingBalance.listStep, hf, hmore, hcur]
      rw [hstep, ih (p.next_page.getD "")
        (acc ++ p.data.map (fun sb => StakingBalance.mk sb asset)) fuel'
        hchain2 (by simp at hfuel ⊢; omega)]
      simp

/-- C8: for every fetch serving a fixed chained page sequence (each non-final
page sets `has_more` and supplies a truthy next cursor, the final page clears
`has_more`), `StakingBalance.list` returns exactly the concatenation of each
page's records in page order, each wrapped with the per-call asset, in
server-returned order within each page. -/
theorem spec_C8 :
    ∀ (fetch : Option String → FetchPage) (asset : Asset)
      (ps : List FetchPage) (fuel : Nat),
      StakingBalance.chainWith (fun p => p.has_more = false) fetch "" ps →
      ps.length + 1 ≤ fuel →
      StakingBalance.list fetch asset fuel =
        some ((ps.flatMap FetchPage.data).map
          (fun sb => StakingBalance.mk sb asset)) := by
  intro fetch asset ps fuel hchain hfuel
  exact listLoop_chainWith (fun p => p.has_more = false)
    (fun p hp => .inl hp) fetch asset ps "" [] fuel hchain hfuel

/-- A staking-balance record distinguished by its index. -/
def sbRec (i : Nat) : StakingBalanceModel :=
  ⟨toString i, "addr1", "validator", "32000000000", "0", "0"⟩

/-- The asset used by the concrete pagination scenarios. -/
def asset137 : Asset := ⟨"ethereum-holesky", "eth", 18⟩

/-- Page 1 of the claim's concrete scenario: 100 records, more pages,
cursor "p2". -/
def page137A : FetchPage := ⟨(List.range 100).map sbRec, true, some "p2"⟩

/-- Page 2 of the claim's concrete scenario: 37 records, no more pages. -/
def page137B : FetchPage :=
  ⟨(List.range 37).map (fun i => sbRec (100 + i)), false, none⟩

/-- The fetch of the claim's concrete scenario. -/
def fetch137 : Option String → FetchPage :=
  fun c => if c = some "p2" then page137B else page137A

/-- C8 witness: the claim's concrete scenario — a page of 100 records with
`has_more` and cursor "p2", then a page of 37 records without `has_more`:
the retrieval returns exactly the 137 records in page-1-then-page-2 order. -/
theorem spec_C8_witness :
    StakingBalance.list fetch137 asset137 3 =
      some ((List.range 137).map
        (fun i => StakingBalance.mk (sbRec i) asset137)) :=
  (spec_C8 fetch137 asset137 [page137A, page137B] 3
    ⟨rfl, rfl, by decide, rfl, rfl⟩ (by decide)).trans (by rfl)

/-- C2 counterexample: a two-page scenario whose second (middle) page sets
`has_more` but supplies no cursor.  The retrieval does not raise anything:
it terminates normally and returns the previously collected page-1 records
together with that page's records.  No ProtocolViolationError exists in the
code. -/
theorem spec_C2_counterexample :
    StakingBalance.list
        (fun c => if c = some "v2" then (⟨[sbRec 1], true, none⟩ : FetchPage)
          else ⟨[sbRec 0], true, some "v2"⟩) asset137 3 =
      some [StakingBalance.mk (sbRec 0) asset137,
            StakingBalance.mk (sbRec 1) asset137] := by
  rfl

/-- C2 (amended): if a page response sets `has_more` while supplying no
truthy next cursor, `StakingBalance.list` silently stops paging there: it
terminates normally and returns every record collected so far (including
that page's records), raising no error. -/
theorem spec_C2 :
    ∀ (fetch : Option String → FetchPage) (asset : Asset)
      (ps : List FetchPage) (fuel : Nat),
      StakingBalance.chainWith
        (fun p => p.has_more = true ∧ (p.next_page.getD "").length = 0)
        fetch "" ps →
      ps.length + 1 ≤ fuel →
      StakingBalance.list fetch asset fuel =
        some ((ps.flatMap FetchPage.data).map
          (fun sb => StakingBalance.mk sb asset)) := by
  intro fetch asset ps fuel hchain hfuel
  exact listLoop_chainWith _ (fun p hp => .inr hp.2) fetch asset ps "" [] fuel
    hchain hfuel

/-- C2 witness: the amended claim at a concrete single-page fetch whose page
asserts `has_more` with a `next_page` that is present but empty. -/
theorem spec_C2_witness :
    StakingBalance.list (fun _ => (⟨[sbRec 2], true, some ""⟩ : FetchPage))
        asset137 2 =
      some [StakingBalance.mk (sbRec 2) asset137] :=
  (spec_C2 (fun _ => (⟨[sbRec 2], true, some ""⟩ : FetchPage)) asset137
    [⟨[sbRec 2], true, some ""⟩] 2 ⟨rfl, rfl, rfl⟩ (by decide)).trans (by rfl)

/-- C9: the work queue of `StakingBalance.list` starts as the single
empty-string sentinel, an iteration on an empty queue terminates the loop
returning the accumulated records, and every loop state reachable from the
initial state has a queue holding at most one pending cursor (each iteration
removes one entry and enqueues at most one). -/
theorem spec_C9 :
    ∀ (fetch : Option String → FetchPage) (asset : Asset),
      StakingBalance.listReach fetch asset 0 = .inl ([""], []) ∧
      (∀ acc, StakingBalance.listStep fetch asset ([], acc) = .inr acc) ∧
      (∀ (n : Nat) (s : StakingBalance.ListState),
        StakingBalance.listReach fetch asset n = .inl s → s.1.length ≤ 1) := by
  intro fetch asset
  refine ⟨rfl, fun acc => rfl, ?_⟩
  intro n
  induction n with
  | zero =>
    intro s hs
    simp only [StakingBalance.listReach] at hs
    cases hs
    rfl
  | succ n ih =>
    intro s hs
    simp only [StakingBalance.listReach] at hs
    cases hprev : StakingBalance.listReach fetch asset n with
    | inr r => rw [hprev] at hs; cases hs
    | inl s0 =>
      rw [hprev] at hs
      have hlen := ih s0 hprev
      obtain ⟨queue0, acc0⟩ := s0
      match queue0 with
      | [] => cases hs
      | c :: rest =>
        have hrest : rest = [] := by
          rcases rest with _ | ⟨x, xs⟩
          · rfl
          · simp only [List.length_cons] at hlen
            omega
        subst hrest
        simp only [StakingBalance.listStep, Sum.inl.injEq] at hs
        cases hs
        by_cases h1 : (fetch (StakingBalance.cursorArg c)).has_more = true
        · by_cases h2 :
            (((fetch (StakingBalance.cursorArg c)).next_page.getD "").length ≠ 0)
          · simp [h1, h2]
          · simp [h1, h2]
        · simp [h1]

/-- C9 witness: after one iteration of the concrete two-page scenario the
queue holds exactly the one cursor "p2" — at most one pending cursor. -/
theorem spec_C9_witness :
    ((["p2"] : List String),
      (List.range 100).map (fun i => StakingBalance.mk (sbRec i) asset137)).1.length
      ≤ 1 :=
  (spec_C9 fetch137 asset137).2.2 1
    (["p2"], (List.range 100).map (fun i => StakingBalance.mk (sbRec i) asset137))
    (by rfl)

/-! ### C10: BalanceMap last-write-wins -/

/-- `Map.set` then `Map.get`: the set key now yields the new value, every
other key is untouched. -/
lemma mapGet_mapSet (m : List (String × Int)) (k k2 : String) (v : Int) :
    mapGet (mapSet m k v) k2 = if k = k2 then some v else mapGet m k2 := by
  induction m with
  | nil => simp [mapSet, mapGet]
  | cons e rest ih =>
    obtain ⟨ke, ve⟩ := e
    by_cases h : ke = k
    · subst h
      by_cases h2 : ke = k2 <;> simp [mapSet, mapGet, h2]
    · by_cases h2 : ke = k2 <;> by_cases h3 : k = k2 <;>
        simp_all [mapSet, mapGet]

/-- Setting the same key to the same value twice equals setting it once. -/
lemma mapSet_mapSet_self (m : List (String × Int)) (k : String) (v : Int) :
    mapSet (mapSet m k v) k v = mapSet m k v := by
  induction m with
  | nil => simp [mapSet]
  | cons e rest ih =>
    obtain ⟨ke, ve⟩ := e
    by_cases h : ke = k
    · subst h
      simp [mapSet]
    · simp [mapSet, h, ih]

/-- Folding `add` over a balance list computes, at each key, the amount of
the last balance bearing that key, falling back to the initial map. -/
lemma mapGet_foldl_add (bs : List Balance) (m : List (String × Int))
    (k : String) :
    mapGet ((bs.foldl BalanceMap.add ⟨m⟩).map) k =
      match (bs.filter fun b => b.assetId == k).getLast? with
      | some b => some b.amount
      | none => mapGet m k := by
  induction bs generalizing m with
  | nil => simp
  | cons b rest ih =>
    rw [List.foldl_cons]
    have hadd : BalanceMap.add ⟨m⟩ b = ⟨mapSet m b.assetId b.amount⟩ := rfl
    rw [hadd, ih]
    by_cases hb : b.assetId = k
    · rw [List.filter_cons, if_pos (by simpa using hb)]
      cases hfl : (rest.filter fun b2 => b2.assetId == k).getLast? with
      | none =>
        have hnil : (rest.filter fun b2 => b2.assetId == k) = [] :=
          List.getLast?_eq_none_iff.mp hfl
        rw [hnil]
        simp [mapGet_mapSet, hb]
      | some blast =>
        have hcons : ∃ x xs, (rest.filter fun b2 => b2.assetId == k) = x :: xs := by
          cases hfl2 : (rest.filter fun b2 => b2.assetId == k) with
          | nil => rw [hfl2] at hfl; cases hfl
          | cons x xs => exact ⟨x, xs, rfl⟩
        obtain ⟨x, xs, hxs⟩ := hcons
        rw [hxs]
        rw [hxs] at hfl
        rw [List.getLast?_cons_cons, hfl]
    · rw [List.filter_cons, if_neg (by simpa using hb)]
      cases hfl : (rest.filter fun b2 => b2.assetId == k).getLast? with
      | none => simp [mapGet_mapSet, hb]
      | some blast => rfl

/-- C10: `BalanceMap` keeps exactly one binding per asset id with
last-write-wins semantics — for every balance list, `fromBalances` binds each
asset id to the amount of the last balance in the list bearing that id (and
leaves ids that occur in no balance unbound); and adding the same balance
twice leaves the map identical to adding it once. -/
theorem spec_C10 :
    (∀ (balances : List Balance) (k : String),
      BalanceMap.get (BalanceMap.fromBalances balances) k =
        ((balances.filter fun b => b.assetId == k).getLast?).map
          Balance.amount) ∧
    (∀ (bm : BalanceMap) (b : Balance), (bm.add b).add b = bm.add b) := by
  constructor
  · intro balances k
    have h := mapGet_foldl_add balances [] k
    rw [BalanceMap.fromBalances, BalanceMap.get, h]
    cases (balances.filter fun b => b.assetId == k).getLast? with
    | none => rfl
    | some blast => rfl
  · intro bm b
    show BalanceMap.mk (mapSet (mapSet bm.map b.assetId b.amount)
      b.assetId b.amount) = BalanceMap.mk (mapSet bm.map b.assetId b.amount)
    rw [mapSet_mapSet_self]
